import Mathlib

/-!
Verification development for the `systeso-backend` batch receipt-ingestion
pipeline (`src/utils/zip_processor.py`).

The Python module is shallowly embedded: pure helpers become Lean functions,
the two regexes (`RFC_RE`, `PER_RE`) become explicit backtracking matchers
over `List Char` with the same semantics on the alphabet the pipeline uses,
and the stateful parts (SQLAlchemy session over the `recibos` table, the S3
bucket, the local filesystem) become explicit state passing over a `World`
record.  Machine-level effects that the claims do not touch (temp dirs,
logging, timestamps) are modelled as pure data (`now` is a parameter).
-/

namespace Systeso

/-! ## Characters and Python-string helpers

`pyUpper` models Python `str.upper()` on the characters this pipeline can
meet (ASCII plus the Spanish letters appearing in `RFC_RE`/`PER_RE`).
-/

def pyUpper (c : Char) : Char :=
  match c with
  | 'ñ' => 'Ñ'
  | 'á' => 'Á'
  | 'é' => 'É'
  | 'í' => 'Í'
  | 'ó' => 'Ó'
  | 'ú' => 'Ú'
  | _ => c.toUpper

/-- Characters kept by `re.sub(r"[^A-Za-z0-9Ñ&]", "", ...)` in `normalize_rfc`. -/
def isRfcAlphabet (c : Char) : Bool :=
  c.isAlphanum || c = 'Ñ' || c = '&'

/-- Word characters for Python's `\b`, restricted to the alphabet in play
(ASCII alphanumerics, underscore, and the Spanish letters above). -/
def isWordChar (c : Char) : Bool :=
  c.isAlphanum || c = '_' || c = 'Ñ' || c = 'ñ' ||
    c = 'Á' || c = 'É' || c = 'Í' || c = 'Ó' || c = 'Ú' ||
    c = 'á' || c = 'é' || c = 'í' || c = 'ó' || c = 'ú'

/-- Leading letter class of `RFC_RE`: `[A-ZÑ&]` under `re.IGNORECASE`. -/
def isRfcHead (c : Char) : Bool :=
  c.isAlpha || c = 'Ñ' || c = 'ñ' || c = '&'

/-- Trailing class of `RFC_RE`: `[A-Z0-9]` under `re.IGNORECASE`. -/
def isRfcTail (c : Char) : Bool :=
  c.isAlphanum

/-! ## normalize_rfc -/

/-- Embedding of `normalize_rfc` (zip_processor.py:37-42): `None`/empty in,
`None` out; otherwise uppercase, keep only `[A-Za-z0-9Ñ&]`, and return
`None` when nothing is left. -/
def normalize_rfc (s : Option String) : Option String :=
  match s with
  | none => none
  | some s =>
    if s = "" then none
    else
      let cleaned := (s.data.map pyUpper).filter isRfcAlphabet
      if cleaned = [] then none else some (String.mk cleaned)

/-! ## RFC_RE: `\b([A-ZÑ&]{3,4}\d{6}[A-Z0-9]{2,3})\b`, IGNORECASE

`re.findall` scans left to right; a candidate position must sit on a word
boundary, the quantifiers backtrack greedily (4 letters before 3, 3 trailing
characters before 2), and a word boundary must follow.  After a match,
scanning resumes at the match's end (matches never overlap), which the
scanner realises with a skip counter so that recursion stays structural.
-/

/-- Take exactly `n` characters satisfying `p`. -/
def takeN (p : Char → Bool) : Nat → List Char → Option (List Char × List Char)
  | 0, l => some ([], l)
  | _ + 1, [] => none
  | n + 1, c :: rest =>
    if p c then
      match takeN p n rest with
      | some (t, r) => some (c :: t, r)
      | none => none
    else none

/-- Python's `\b` between the previous character and the current one: a
word/non-word transition, with out-of-range counting as non-word. -/
def boundaryAt (prev : Option Char) (c : Char) : Bool :=
  match prev with
  | none => isWordChar c
  | some p => isWordChar p != isWordChar c

/-- Try one shape of `RFC_RE` (nl letters, 6 digits, nt tail) at the head of
`l`, requiring the trailing word boundary. -/
def rfcTry (nl nt : Nat) (l : List Char) : Option (List Char × List Char) :=
  match takeN isRfcHead nl l with
  | none => none
  | some (a, r1) =>
    match takeN Char.isDigit 6 r1 with
    | none => none
    | some (b, r2) =>
      match takeN isRfcTail nt r2 with
      | none => none
      | some (c, r3) =>
        let boundaryAfter : Bool :=
          match r3 with
          | [] => true
          | d :: _ => !isWordChar d
        if boundaryAfter then some (a ++ b ++ c, r3) else none

/-- Backtracking order of `{3,4}`/`{2,3}`: greedy outer first. -/
def rfcTryAll (l : List Char) : Option (List Char × List Char) :=
  match rfcTry 4 3 l with
  | some r => some r
  | none =>
    match rfcTry 4 2 l with
    | some r => some r
    | none =>
      match rfcTry 3 3 l with
      | some r => some r
      | none => rfcTry 3 2 l

/-- Scan for all `RFC_RE` matches.  `skip` counts positions still covered by
the previous match (so no attempt is made inside it), and `prev` is the
character before the current position, for the leading word boundary. -/
def rfcScan : Nat → Option Char → List Char → List (List Char)
  | _, _, [] => []
  | skip + 1, _, c :: rest => rfcScan skip (some c) rest
  | 0, prev, c :: rest =>
    if boundaryAt prev c then
      match rfcTryAll (c :: rest) with
      | some (m, _) => m :: rfcScan (m.length - 1) (some c) rest
      | none => rfcScan 0 (some c) rest
    else rfcScan 0 (some c) rest

/-- Embedding of `RFC_RE.findall`. -/
def rfc_findall (s : String) : List String :=
  (rfcScan 0 none s.data).map String.mk

/-! ## PER_RE: the "Periodo del: D al D" search

`re.search` with
`Periodo\s*del\s*:?\s*(day sep month sep year)\s*al\s*(day sep month sep year), where sep is slash or dash`.
All character classes here are disjoint from what follows them, so the
backtracking regex is equivalent to deterministic maximal munch, except for
`\d{1,2}` which tries two digits before one.
-/

def isSep (c : Char) : Bool :=
  c = '/' || c = '-'

/-- Month-token class `[A-Za-zÁÉÍÓÚáéíóú\.]` (IGNORECASE adds nothing new). -/
def isMonthChar (c : Char) : Bool :=
  c.isAlpha || c = '.' ||
    c = 'Á' || c = 'É' || c = 'Í' || c = 'Ó' || c = 'Ú' ||
    c = 'á' || c = 'é' || c = 'í' || c = 'ó' || c = 'ú'

/-- Consume a case-insensitive ASCII literal. -/
def eatCI : List Char → List Char → Option (List Char)
  | [], l => some l
  | _ :: _, [] => none
  | a :: la, c :: lc => if c.toLower = a.toLower then eatCI la lc else none

/-- Consume `\s*`. -/
def eatWS (l : List Char) : List Char :=
  l.dropWhile Char.isWhitespace

/-- After the day digits `ds`: separator, month letters, separator, year. -/
def dateTokRest (ds : List Char) (l : List Char) : Option (List Char × List Char) :=
  match l with
  | [] => none
  | s1 :: r1 =>
    if isSep s1 then
      let ms := r1.takeWhile isMonthChar
      if ms = [] then none
      else
        match r1.drop ms.length with
        | [] => none
        | s2 :: r2 =>
          if isSep s2 then
            match takeN Char.isDigit 4 r2 with
            | some (ys, r3) => some (ds ++ s1 :: (ms ++ s2 :: ys), r3)
            | none => none
          else none
    else none

/-- One date token day, separator, month, separator, 4-digit year; two day digits are tried
before one. -/
def dateTok (l : List Char) : Option (List Char × List Char) :=
  match l with
  | [] => none
  | c :: rest =>
    if c.isDigit then
      match rest with
      | [] => none
      | d :: rest2 =>
        if d.isDigit then
          match dateTokRest [c, d] rest2 with
          | some r => some r
          | none => dateTokRest [c] rest
        else dateTokRest [c] rest
    else none

/-- Try the whole `PER_RE` pattern at the head of `l`, returning the two
capture groups. -/
def perMatchAt (l : List Char) : Option (List Char × List Char) :=
  match eatCI "periodo".data l with
  | none => none
  | some r1 =>
    match eatCI "del".data (eatWS r1) with
    | none => none
    | some r3 =>
      let r4 := eatWS r3
      let r5 := match r4 with
        | ':' :: t => t
        | _ => r4
      match dateTok (eatWS r5) with
      | none => none
      | some (g1, r7) =>
        match eatCI "al".data (eatWS r7) with
        | none => none
        | some r9 =>
          match dateTok (eatWS r9) with
          | none => none
          | some (g2, _) => some (g1, g2)

/-- Embedding of `PER_RE.search`: leftmost match. -/
def perSearch : List Char → Option (List Char × List Char)
  | [] => none
  | c :: rest =>
    match perMatchAt (c :: rest) with
    | some g => some g
    | none => perSearch rest

/-! ## The document extractor `extraer_rfcs_y_periodo`

A PDF is modelled as its declared path plus the result of
`pdfplumber.open`: `none` when opening raises, otherwise the list of
`page.extract_text()` results (each `Option String`, `None` for empty
pages).
-/

structure PdfFile where
  name : String
  content : Option (List (Option String))
deriving DecidableEq, Repr

/-- Python `"\n".join`, at the character-list level. -/
def joinPages : List (List Char) → List Char
  | [] => []
  | [p] => p
  | p :: q :: rest => p ++ '\n' :: joinPages (q :: rest)

/-- Truthiness of `txt and txt.strip()`: some non-whitespace character. -/
def nonBlank (l : List Char) : Bool :=
  l.any (fun c => !c.isWhitespace)

/-- Split a character list on a separator character. -/
def splitChar (sep : Char) (l : List Char) : List (List Char) :=
  l.foldr
    (fun c acc =>
      if c = sep then [] :: acc
      else
        match acc with
        | h :: t => (c :: h) :: t
        | [] => [[c]])
    [[]]

/-- The final component of a path (Python `Path.name`; `rglob` never yields
trailing slashes). -/
def baseName (s : String) : String :=
  String.mk (((splitChar '/' s.data).getLast?).getD [])

/-- Python `Path.suffix` of the final path component, e.g. ".pdf": the part
from the last dot, empty when there is nothing after that dot or when the
only dot starts a hidden-file name. -/
def pathSuffix (s : String) : String :=
  let parts := splitChar '.' (baseName s).data
  match parts with
  | [] => ""
  | [_] => ""
  | [[], _] => ""
  | _ =>
    match (parts.getLast?).getD [] with
    | [] => ""
    | ext => String.mk ('.' :: ext)

/-- ASCII lowercasing of a string (Python `str.lower` on extensions). -/
def lowerStr (s : String) : String :=
  String.mk (s.data.map Char.toLower)

/-- Python `str.replace('/', '-')`. -/
def dashify (l : List Char) : List Char :=
  l.map (fun c => if c = '/' then '-' else c)

/-- Consume a literal at the head of a list, case-sensitively. -/
def eatLit : List Char → List Char → Option (List Char)
  | [], l => some l
  | _ :: _, [] => none
  | a :: la, c :: lc => if c = a then eatLit la lc else none

/-- Python `str.replace(pat, rep)` for a nonempty pattern: every
non-overlapping occurrence, left to right.  A skip counter keeps the
recursion structural while resuming after a replaced occurrence. -/
def replaceAllAux (pat rep : List Char) : Nat → List Char → List Char
  | _, [] => []
  | skip + 1, _ :: rest => replaceAllAux pat rep skip rest
  | 0, c :: rest =>
    match eatLit pat (c :: rest) with
    | some _ => rep ++ replaceAllAux pat rep (pat.length - 1) rest
    | none => c :: replaceAllAux pat rep 0 rest

/-- Python `str.replace` on strings (nonempty pattern). -/
def pyReplace (s pat rep : String) : String :=
  String.mk (replaceAllAux pat.data rep.data 0 s.data)

/-- The `for r in name_rfcs: if r not in rfcs: rfcs.append(r)` loop. -/
def appendNew (acc : List String) : List String → List String
  | [] => acc
  | r :: rest => if acc.contains r then appendNew acc rest else appendNew (acc ++ [r]) rest

/-- Embedding of `extraer_rfcs_y_periodo` (zip_processor.py:45-75).
An open failure returns `([], None)` at once (no filename fallback);
otherwise all pages are joined, RFC and period patterns run over the text
when it is non-blank, and RFCs from the file's base name are appended when
not already present. -/
def extraer_rfcs_y_periodo (f : PdfFile) : List String × Option String :=
  match f.content with
  | none => ([], none)
  | some pages =>
    let txt := joinPages (pages.map (fun p => (p.getD "").data))
    let rfcs := if nonBlank txt then rfc_findall (String.mk txt) else []
    let periodo : Option String :=
      if nonBlank txt then
        match perSearch txt with
        | some (ini, fin) =>
          some (String.mk (dashify ini) ++ "_al_" ++ String.mk (dashify fin))
        | none => none
      else none
    (appendNew rfcs (rfc_findall (baseName f.name)), periodo)

/-! ## Data model: configuration, ledger record, world state

`Config` holds the storage selection read once from the process
configuration (`is_s3_enabled`, `settings.s3_bucket`,
`get_local_storage_root`).  `Recibo` mirrors the `recibos` table columns the
pipeline touches (the autoincrement id is not modelled; `clave_empleado` is
a string column).  `World` carries the mutable state: the `recibos` rows in
insertion order, the set of S3 keys present in the bucket, the set of local
file paths present, and the environment's failure behavior — keys whose
`head_object` raises a non-404 `ClientError` and keys whose `upload_file`
raises.  Processing steps never change the two fault sets.
-/

structure Config where
  use_s3 : Bool
  s3_bucket : String
  local_root : String
deriving DecidableEq, Repr

structure Recibo where
  clave_empleado : String
  rfc : String
  periodo : String
  nombre_archivo : String
  ruta_archivo : String
  fecha_subida : String
deriving DecidableEq, Repr

structure World where
  db : List Recibo
  s3objs : List String
  fs : List String
  headFaults : List String
  uploadFaults : List String
deriving DecidableEq, Repr

/-- Fatal outcomes that abort `procesar_zip` as a whole. -/
inductive Fatal where
  | archiveCorrupt
  | storageFault
deriving DecidableEq, Repr

/-- Per-document outcome, in bijection with the `stats` counters. -/
inductive Outcome where
  | nuevo
  | ya_existia
  | reparado
  | sin_usuario
  | omitido
deriving DecidableEq, Repr

/-! ## Storage abstraction -/

/-- Embedding of `_s3_key` (zip_processor.py:78-79). -/
def s3_key (rfc : String) (clave_emp : String) (nombre_archivo : String) : String :=
  String.mk (rfc.data.map pyUpper) ++ "/" ++ clave_emp ++ "/" ++ nombre_archivo

/-- Embedding of `_s3_exists` (zip_processor.py:81-90): `head_object`
succeeding means present; a 404-class `ClientError` means confirmed absent;
any other backend error re-raises (modelled as `Except.error`).  The bucket
argument is kept for shape; the model has a single configured bucket. -/
def s3_exists (w : World) (bucket : String) (key : String) : Except Unit Bool :=
  if w.headFaults.contains key then Except.error ()
  else
    let _ := bucket
    Except.ok (w.s3objs.contains key)

/-- Embedding of `_save_pdf_and_get_path` (zip_processor.py:92-109): on S3,
upload under `_s3_key` (raising when the backend faults) and return the
`s3://bucket/key` locator; on the filesystem, write under
`local_root/clave/nombre` and return that path. -/
def save_pdf_and_get_path (cfg : Config) (w : World) (rfc : String)
    (clave_emp : String) (nombre_archivo : String) :
    Except Fatal (World × String) :=
  if cfg.use_s3 then
    let key := s3_key rfc clave_emp nombre_archivo
    if w.uploadFaults.contains key then Except.error Fatal.storageFault
    else Except.ok ({ w with s3objs := key :: w.s3objs },
      "s3://" ++ cfg.s3_bucket ++ "/" ++ key)
  else
    let dest := cfg.local_root ++ "/" ++ clave_emp ++ "/" ++ nombre_archivo
    Except.ok ({ w with fs := dest :: w.fs }, dest)

/-! ## Ledger (the `recibos` table) -/

/-- The dedup-key filter of the `db.query(Recibo)` lookup. -/
def recMatches (clave_emp rfc periodo nombre : String) (r : Recibo) : Bool :=
  r.clave_empleado = clave_emp && r.rfc = rfc &&
    r.periodo = periodo && r.nombre_archivo = nombre

/-- First `recibos` row matching the dedup key, with its position
(`query.first()`), rows kept in insertion order. -/
def ledgerFind (db : List Recibo) (clave_emp rfc periodo nombre : String) :
    Option (Nat × Recibo) :=
  match db with
  | [] => none
  | r :: rest =>
    if recMatches clave_emp rfc periodo nombre r then some (0, r)
    else
      match ledgerFind rest clave_emp rfc periodo nombre with
      | some (i, r') => some (i + 1, r')
      | none => none

/-! ## Directory snapshot (the `usuarios` query and `user_map`) -/

/-- Insert into a Python dict modelled as an ordered association list:
an existing key is overwritten in place, a new key goes to the end. -/
def dictInsert (m : List (String × String)) (k v : String) : List (String × String) :=
  match m with
  | [] => [(k, v)]
  | (k', v') :: rest =>
    if k' = k then (k', v) :: rest else (k', v') :: dictInsert rest k v

/-- Dict lookup (keys are unique by construction of `dictInsert`). -/
def dictGet? (m : List (String × String)) (k : String) : Option String :=
  match m with
  | [] => none
  | (k', v) :: rest => if k' = k then some v else dictGet? rest k

/-- Membership test `r in user_map`. -/
def dictContains (m : List (String × String)) (k : String) : Bool :=
  (dictGet? m k).isSome

/-- Embedding of the `user_map` construction (zip_processor.py:143-148):
each `(clave, rfc)` row whose RFC normalizes to something is inserted under
the normalized RFC, later rows overwriting earlier ones. -/
def build_user_map (usuarios : List (String × Option String)) : List (String × String) :=
  usuarios.foldl
    (fun m cu =>
      match normalize_rfc cu.2 with
      | none => m
      | some nrfc => dictInsert m nrfc cu.1)
    []

/-! ## The per-document reconciler (zip_processor.py:176-228) -/

/-- Embedding of the reconciliation tail of the per-document loop, entered
once an RFC matching a user has been chosen: build the canonical filename
and the stored period, look up the dedup key; on a hit decide `missing`
(on S3 any exception from the exists check is caught and counted as
missing; on the filesystem a direct path check on the record's locator) and
either repair in place or report the receipt as already present; on a miss
persist and insert a fresh row. -/
def reconcile (cfg : Config) (now : String) (w : World)
    (clave_emp rfc_guardar periodo : String) : Except Fatal (World × Outcome) :=
  let nombre_archivo := rfc_guardar ++ "_" ++ periodo ++ ".pdf"
  let periodo_bd := pyReplace periodo "_al_" " al "
  match ledgerFind w.db clave_emp rfc_guardar periodo_bd nombre_archivo with
  | some (i, existe) =>
    let missing : Bool :=
      if cfg.use_s3 then
        let key := s3_key rfc_guardar clave_emp nombre_archivo
        match s3_exists w cfg.s3_bucket key with
        | Except.ok b => !b
        | Except.error _ => true
      else !(w.fs.contains existe.ruta_archivo)
    if missing then
      match save_pdf_and_get_path cfg w rfc_guardar clave_emp nombre_archivo with
      | Except.error e => Except.error e
      | Except.ok (w1, nueva_ruta) =>
        Except.ok ({ w1 with db := w1.db.set i { existe with ruta_archivo := nueva_ruta } },
          Outcome.reparado)
    else Except.ok (w, Outcome.ya_existia)
  | none =>
    match save_pdf_and_get_path cfg w rfc_guardar clave_emp nombre_archivo with
    | Except.error e => Except.error e
    | Except.ok (w1, ruta_guardar) =>
      Except.ok ({ w1 with db := w1.db ++
          [{ clave_empleado := clave_emp, rfc := rfc_guardar, periodo := periodo_bd,
             nombre_archivo := nombre_archivo, ruta_archivo := ruta_guardar,
             fecha_subida := now }] },
        Outcome.nuevo)

/-- Embedding of one iteration of the per-document loop
(zip_processor.py:157-228), after the extension filter: extract, normalize
and filter the candidates, skip when there is no candidate or no period,
pick the first candidate present in `user_map`, and reconcile. -/
def processDoc (cfg : Config) (user_map : List (String × String)) (now : String)
    (w : World) (f : PdfFile) : Except Fatal (World × Outcome) :=
  let er := extraer_rfcs_y_periodo f
  let rfcs_norm := (er.1.map (fun r => normalize_rfc (some r))).filterMap id
  match er.2, rfcs_norm with
  | none, _ => Except.ok (w, Outcome.omitido)
  | some _, [] => Except.ok (w, Outcome.omitido)
  | some periodo, r0 :: rest =>
    match (r0 :: rest).find? (fun r => dictContains user_map r) with
    | none => Except.ok (w, Outcome.sin_usuario)
    | some rfc_norm_match =>
      reconcile cfg now w ((dictGet? user_map rfc_norm_match).getD "")
        rfc_norm_match periodo

/-! ## The batch driver `procesar_zip` -/

/-- Result counters of `procesar_zip`. -/
structure Stats where
  nuevos : Nat
  ya_existian : Nat
  reparados : Nat
  sin_usuario : Nat
  omitidos : Nat
  total_pdfs : Nat
deriving DecidableEq, Repr

def stats0 : Stats := ⟨0, 0, 0, 0, 0, 0⟩

/-- Add one to the counter named by an outcome. -/
def bumpOutcome (s : Stats) : Outcome → Stats
  | Outcome.nuevo => { s with nuevos := s.nuevos + 1 }
  | Outcome.ya_existia => { s with ya_existian := s.ya_existian + 1 }
  | Outcome.reparado => { s with reparados := s.reparados + 1 }
  | Outcome.sin_usuario => { s with sin_usuario := s.sin_usuario + 1 }
  | Outcome.omitido => { s with omitidos := s.omitidos + 1 }

/-- Extension filter of the loop header: `suffix.lower() == ".pdf"`
(directory entries are not modelled; every archive entry is a file). -/
def hasPdfExt (name : String) : Bool :=
  lowerStr (pathSuffix name) = ".pdf"

/-- The `for pdf_file in Path(tmpdir).rglob("*")` loop: skip non-PDF names,
count each PDF, process it, and stop with the fault if an iteration raises
one. -/
def runDocs (cfg : Config) (user_map : List (String × String)) (now : String) :
    List PdfFile → World → Stats → Except Fatal (World × Stats)
  | [], w, s => Except.ok (w, s)
  | f :: rest, w, s =>
    if hasPdfExt f.name then
      match processDoc cfg user_map now w f with
      | Except.error e => Except.error e
      | Except.ok (w', k) =>
        runDocs cfg user_map now rest w'
          (bumpOutcome { s with total_pdfs := s.total_pdfs + 1 } k)
    else runDocs cfg user_map now rest w s

/-- The uploaded bytes: either a well-formed archive listing its entries in
`rglob` order, or a blob `zipfile.ZipFile` rejects. -/
inductive Blob where
  | valid (files : List PdfFile)
  | corrupt
deriving DecidableEq, Repr

/-- Embedding of `procesar_zip` (zip_processor.py:112-233).  A corrupt
container raises before the session is opened, so nothing is counted or
written; otherwise the `usuarios` snapshot is folded into `user_map` and the
archive entries are processed in order from the initial world. -/
def procesar_zip (cfg : Config) (now : String)
    (usuarios : List (String × Option String)) (blob : Blob) (w : World) :
    Except Fatal (World × Stats) :=
  match blob with
  | Blob.corrupt => Except.error Fatal.archiveCorrupt
  | Blob.valid files => runDocs cfg (build_user_map usuarios) now files w stats0

/-! ## The spec's filename fast path (not present in the source)

Modelled from the spec: section 4.1 describes a fast path applying "a
pattern to the filename capturing an identifier-shaped token and two date
tokens joined by al".  `extraer_rfcs_y_periodo` has no such path, so this
predicate exists only to state that claim.
-/

/-- Two date tokens joined by "al", tried at the head of the list. -/
def dateAlAt (l : List Char) : Option Unit :=
  match dateTok l with
  | none => none
  | some (_, r1) =>
    match eatCI "al".data (eatWS r1) with
    | none => none
    | some r2 => (dateTok (eatWS r2)).map (fun _ => ())

/-- Search the whole list for two date tokens joined by "al". -/
def dateAlSearch : List Char → Bool
  | [] => false
  | c :: rest => (dateAlAt (c :: rest)).isSome || dateAlSearch rest

/-- Modelled from the spec: the filename fast-path trigger of section 4.1
(an identifier-shaped token present, and two date tokens joined by "al"). -/
def filename_fast_match (name : String) : Bool :=
  !(rfc_findall name).isEmpty && dateAlSearch name.data

/-- Decidable equality for `Except`, for evaluating runs on concrete
inputs. -/
instance {ε α : Type} [DecidableEq ε] [DecidableEq α] : DecidableEq (Except ε α) :=
  fun a b =>
    match a, b with
    | Except.ok x, Except.ok y =>
      if h : x = y then isTrue (congrArg Except.ok h)
      else isFalse (fun hc => h (Except.ok.inj hc))
    | Except.error x, Except.error y =>
      if h : x = y then isTrue (congrArg Except.error h)
      else isFalse (fun hc => h (Except.error.inj hc))
    | Except.ok _, Except.error _ => isFalse (fun hc => Except.noConfusion hc)
    | Except.error _, Except.ok _ => isFalse (fun hc => Except.noConfusion hc)

/-! ## Concrete fixtures

Scenario A of the spec (section 8): one document whose text carries the
identifier "ABCD850101XYZ" and the period phrase, a directory mapping that
identifier to employee key "1234", and an empty world.
-/

def cfg_fs : Config := ⟨false, "", "/data"⟩

def cfg_s3 : Config := ⟨true, "bkt", ""⟩

def doc_scenarioA : PdfFile :=
  ⟨"doc1.pdf", some [some "ABCD850101XYZ\nPeriodo del: 01-ene.-2025 al 15-ene.-2025"]⟩

/-- The same period written with slash separators. -/
def doc_slash : PdfFile :=
  ⟨"doc1.pdf", some [some "ABCD850101XYZ\nPeriodo del: 01/ene./2025 al 15/ene./2025"]⟩

def users_scenarioA : List (String × Option String) := [("1234", some "ABCD850101XYZ")]

def w_empty : World := ⟨[], [], [], [], []⟩

/-- The S3 key of Scenario A's artifact. -/
def key_scenarioA : String :=
  "ABCD850101XYZ/1234/ABCD850101XYZ_01-ene.-2025_al_15-ene.-2025.pdf"

/-- Scenario A's row as created by an earlier S3-mode run. -/
def rec_scenarioA_s3 : Recibo :=
  ⟨"1234", "ABCD850101XYZ", "01-ene.-2025 al 15-ene.-2025",
    "ABCD850101XYZ_01-ene.-2025_al_15-ene.-2025.pdf", "s3://bkt/" ++ key_scenarioA, "t0"⟩

/-- Scenario A's row as created by an earlier filesystem-mode run. -/
def rec_scenarioA_fs : Recibo :=
  ⟨"1234", "ABCD850101XYZ", "01-ene.-2025 al 15-ene.-2025",
    "ABCD850101XYZ_01-ene.-2025_al_15-ene.-2025.pdf",
    "/data/1234/ABCD850101XYZ_01-ene.-2025_al_15-ene.-2025.pdf", "t1"⟩

def doc_scenarioB : PdfFile :=
  ⟨"doc2.pdf", some [some "WXYZ900202ABC\nPeriodo del: 02-feb-2025 al 16-feb-2025"]⟩

def users_two : List (String × Option String) :=
  [("1234", some "ABCD850101XYZ"), ("77", some "WXYZ900202ABC")]

/-! ## Claims -/

/-- C8: a byte string that is not a well-formed archive container makes the
ingestion call fail fatally before any per-document processing: for every
configuration, timestamp, directory snapshot and initial world the call
returns the `archiveCorrupt` fault, producing no counters and no world, so
no `ReceiptRecord` is written and no artifact is persisted. -/
theorem C8_corrupt_archive_aborts (cfg : Config) (now : String)
    (usuarios : List (String × Option String)) (w : World) :
    procesar_zip cfg now usuarios Blob.corrupt w = Except.error Fatal.archiveCorrupt :=
  rfl

/-- C5 counterexample: on the spec's own Scenario A input, the recorded
canonical filename is not the dot-stripped name the claim asserts (the
trailing dot of "ene." is retained). -/
theorem C5_counterexample :
    ((procesar_zip cfg_fs "t1" users_scenarioA (Blob.valid [doc_scenarioA]) w_empty).toOption.map
        (fun r => r.1.db.map Recibo.nombre_archivo)) ≠
      some ["ABCD850101XYZ_01-ene-2025_al_15-ene-2025.pdf"] := by
  decide

/-- C5 amended: period normalization unifies "/" and "-" separators but
keeps trailing punctuation after abbreviated month names; Scenario A yields
`created = 1` with canonical filename
"ABCD850101XYZ_01-ene.-2025_al_15-ene.-2025.pdf" and stored period
"01-ene.-2025 al 15-ene.-2025", and the slash-separated variant of the same
phrase normalizes to the same canonical period. -/
theorem C5_amended_scenarioA :
    procesar_zip cfg_fs "t1" users_scenarioA (Blob.valid [doc_scenarioA]) w_empty =
      Except.ok (⟨[rec_scenarioA_fs],
        [], ["/data/1234/ABCD850101XYZ_01-ene.-2025_al_15-ene.-2025.pdf"], [], []⟩,
        ⟨1, 0, 0, 0, 0, 1⟩) ∧
    extraer_rfcs_y_periodo doc_slash =
      (["ABCD850101XYZ"], some "01-ene.-2025_al_15-ene.-2025") := by
  exact ⟨by decide, by decide⟩

/-- C6 counterexample: a filename on which the spec's fast-path pattern
fires, together with two documents sharing that filename but with different
contents and different extraction results — so the extractor does not use
the filename result directly, and does open the document's contents. -/
theorem C6_counterexample :
    filename_fast_match "ABCD850101XYZ 01-ene-2025 al 15-ene-2025.pdf" = true ∧
    extraer_rfcs_y_periodo ⟨"ABCD850101XYZ 01-ene-2025 al 15-ene-2025.pdf",
        some [some "WXYZ900202ABC\nPeriodo del: 02-feb-2025 al 16-feb-2025"]⟩ ≠
      extraer_rfcs_y_periodo ⟨"ABCD850101XYZ 01-ene-2025 al 15-ene-2025.pdf",
        some [some ""]⟩ := by
  exact ⟨by decide, by decide⟩

/-- Helper: the filename-fallback loop only appends to the accumulated
candidates. -/
theorem appendNew_eq_append (l acc : List String) :
    ∃ t, appendNew acc l = acc ++ t := by
  induction l generalizing acc with
  | nil => exact ⟨[], by simp [appendNew]⟩
  | cons r rest ih =>
    show ∃ t, (if acc.contains r then appendNew acc rest else appendNew (acc ++ [r]) rest) =
      acc ++ t
    by_cases h : acc.contains r
    · rw [if_pos h]; exact ih acc
    · rw [if_neg h]
      obtain ⟨t, ht⟩ := ih (acc ++ [r])
      exact ⟨r :: t, by rw [ht, List.append_assoc]; rfl⟩

/-- C6 amended: there is no filename fast path — the period comes from the
document's contents alone (changing the filename never changes it), and the
filename only contributes identifier candidates appended after the
text-derived ones. -/
theorem C6_amended_no_fast_path (n : String) (c : Option (List (Option String))) :
    (extraer_rfcs_y_periodo ⟨n, c⟩).2 = (extraer_rfcs_y_periodo ⟨"", c⟩).2 ∧
    ∃ t, (extraer_rfcs_y_periodo ⟨n, c⟩).1 = (extraer_rfcs_y_periodo ⟨"", c⟩).1 ++ t := by
  cases c with
  | none => exact ⟨rfl, [], by simp [extraer_rfcs_y_periodo]⟩
  | some pages =>
    refine ⟨rfl, ?_⟩
    have hempty : rfc_findall (baseName "") = [] := by decide
    simp only [extraer_rfcs_y_periodo, hempty]
    exact appendNew_eq_append _ _

/-- C3 counterexample: S3 mode, the dedup row present, the artifact
present in the bucket, and the exists check set to raise a transient
backend error for that key.  The batch call succeeds (`Except.ok`, so no
fault reached the caller) and counts the document as repaired — the repair
branch runs even though the artifact was never absent. -/
theorem C3_counterexample :
    (procesar_zip cfg_s3 "t2" users_scenarioA (Blob.valid [doc_scenarioA])
        ⟨[rec_scenarioA_s3], [key_scenarioA], [], [key_scenarioA], []⟩).toOption.map
      (fun r => r.2) = some ⟨0, 0, 1, 0, 0, 1⟩ := by
  decide

/-- C3 amended: the storage helper `_s3_exists` does distinguish confirmed
not-found from other backend errors and re-raises the latter; but the
reconciler catches every error from the exists check, treats the artifact
as missing, and takes the repair branch, so the fault never propagates out
of reconciliation. -/
theorem C3_amended_fault_is_swallowed :
    (∀ (w : World) (bucket key : String), key ∈ w.headFaults →
      s3_exists w bucket key = Except.error ()) ∧
    (∀ (cfg : Config) (now : String) (w : World) (clave rfc periodo : String)
        (i : Nat) (existe : Recibo),
      cfg.use_s3 = true →
      ledgerFind w.db clave rfc (pyReplace periodo "_al_" " al ")
          (rfc ++ "_" ++ periodo ++ ".pdf") = some (i, existe) →
      s3_key rfc clave (rfc ++ "_" ++ periodo ++ ".pdf") ∈ w.headFaults →
      s3_key rfc clave (rfc ++ "_" ++ periodo ++ ".pdf") ∉ w.uploadFaults →
      (reconcile cfg now w clave rfc periodo).toOption.map (fun r => r.2) =
        some Outcome.reparado) := by
  constructor
  · intro w bucket key h
    simp [s3_exists, h]
  · intro cfg now w clave rfc periodo i existe hs3 hfind hhead hup
    simp [reconcile, hfind, hs3, s3_exists, hhead, save_pdf_and_get_path, hup]
    exact ⟨_, rfl⟩

/-- C3 amended, witness. -/
theorem C3_amended_fault_is_swallowed_witness :
    s3_exists ⟨[rec_scenarioA_s3], [key_scenarioA], [], [key_scenarioA], []⟩ "bkt" key_scenarioA =
      Except.error () ∧
    (reconcile cfg_s3 "t2"
        ⟨[rec_scenarioA_s3], [key_scenarioA], [], [key_scenarioA], []⟩
        "1234" "ABCD850101XYZ" "01-ene.-2025_al_15-ene.-2025").toOption.map (fun r => r.2) =
      some Outcome.reparado := by
  constructor
  · exact C3_amended_fault_is_swallowed.1 _ "bkt" key_scenarioA (by decide)
  · exact C3_amended_fault_is_swallowed.2 cfg_s3 "t2" _ "1234" "ABCD850101XYZ"
      "01-ene.-2025_al_15-ene.-2025" 0 rec_scenarioA_s3 rfl (by decide) (by decide) (by decide)

/-- C4 counterexample: an archive with two resolvable documents where the
first document's artifact upload faults.  The whole call aborts with the
storage fault: the per-document fault is not caught, no `BatchResult` is
returned, and the second document is never processed. -/
theorem C4_counterexample :
    procesar_zip cfg_s3 "t1" users_two (Blob.valid [doc_scenarioA, doc_scenarioB])
        ⟨[], [], [], [], [key_scenarioA]⟩ =
      Except.error Fatal.storageFault := by
  decide

/-- C4 amended: extraction faults are caught inside the extractor and
counted (`omitido`), and exists-check faults are caught (folded into
repair, see C3); but a storage fault while persisting an artifact for a new
record is not caught per document: the reconciler propagates it and the
whole call aborts. -/
theorem C4_amended_persist_fault_aborts :
    (∀ (cfg : Config) (um : List (String × String)) (now : String) (w : World)
        (name : String),
      processDoc cfg um now w ⟨name, none⟩ = Except.ok (w, Outcome.omitido)) ∧
    (∀ (cfg : Config) (now : String) (w : World) (clave rfc periodo : String),
      cfg.use_s3 = true →
      ledgerFind w.db clave rfc (pyReplace periodo "_al_" " al ")
          (rfc ++ "_" ++ periodo ++ ".pdf") = none →
      s3_key rfc clave (rfc ++ "_" ++ periodo ++ ".pdf") ∈ w.uploadFaults →
      reconcile cfg now w clave rfc periodo = Except.error Fatal.storageFault) := by
  constructor
  · intro cfg um now w name
    rfl
  · intro cfg now w clave rfc periodo hs3 hfind hup
    simp [reconcile, hfind, save_pdf_and_get_path, hs3, hup]

/-- C4 amended, witness. -/
theorem C4_amended_persist_fault_aborts_witness :
    processDoc cfg_s3 [] "t1" w_empty ⟨"broken.pdf", none⟩ =
      Except.ok (w_empty, Outcome.omitido) ∧
    reconcile cfg_s3 "t1" ⟨[], [], [], [], [key_scenarioA]⟩
        "1234" "ABCD850101XYZ" "01-ene.-2025_al_15-ene.-2025" =
      Except.error Fatal.storageFault := by
  constructor
  · exact C4_amended_persist_fault_aborts.1 cfg_s3 [] "t1" w_empty "broken.pdf"
  · exact C4_amended_persist_fault_aborts.2 cfg_s3 "t1" _ "1234" "ABCD850101XYZ"
      "01-ene.-2025_al_15-ene.-2025" rfl (by decide) (by decide)

/-- C1: for every resolved document, the reconciler looks the dedup tuple
(employee key, identifier, stored period, canonical filename) up in the
ledger and, when the storage backend raises no fault for that key, produces
exactly one of three outcomes: no row — persist and append a fresh row
(`nuevo`); row present and artifact present — no writes at all, the world
is returned untouched (`ya_existia`); row present but artifact absent —
re-persist and update exactly that row's locator in place, inserting
nothing (`reparado`). -/
theorem C1_reconciler_three_outcomes (cfg : Config) (now : String) (w : World)
    (clave rfc periodo : String)
    (hno : cfg.use_s3 = true →
      s3_key rfc clave (rfc ++ "_" ++ periodo ++ ".pdf") ∉ w.headFaults ∧
      s3_key rfc clave (rfc ++ "_" ++ periodo ++ ".pdf") ∉ w.uploadFaults) :
    (ledgerFind w.db clave rfc (pyReplace periodo "_al_" " al ")
        (rfc ++ "_" ++ periodo ++ ".pdf") = none →
      ∀ w1 ruta,
        save_pdf_and_get_path cfg w rfc clave (rfc ++ "_" ++ periodo ++ ".pdf") =
          Except.ok (w1, ruta) →
        reconcile cfg now w clave rfc periodo =
          Except.ok ({ w1 with db := w1.db ++
              [⟨clave, rfc, pyReplace periodo "_al_" " al ",
                rfc ++ "_" ++ periodo ++ ".pdf", ruta, now⟩] },
            Outcome.nuevo)) ∧
    (∀ i existe,
      ledgerFind w.db clave rfc (pyReplace periodo "_al_" " al ")
          (rfc ++ "_" ++ periodo ++ ".pdf") = some (i, existe) →
      (if cfg.use_s3 then
          w.s3objs.contains (s3_key rfc clave (rfc ++ "_" ++ periodo ++ ".pdf"))
        else w.fs.contains existe.ruta_archivo) = true →
      reconcile cfg now w clave rfc periodo = Except.ok (w, Outcome.ya_existia)) ∧
    (∀ i existe,
      ledgerFind w.db clave rfc (pyReplace periodo "_al_" " al ")
          (rfc ++ "_" ++ periodo ++ ".pdf") = some (i, existe) →
      (if cfg.use_s3 then
          w.s3objs.contains (s3_key rfc clave (rfc ++ "_" ++ periodo ++ ".pdf"))
        else w.fs.contains existe.ruta_archivo) = false →
      ∀ w1 ruta,
        save_pdf_and_get_path cfg w rfc clave (rfc ++ "_" ++ periodo ++ ".pdf") =
          Except.ok (w1, ruta) →
        reconcile cfg now w clave rfc periodo =
          Except.ok ({ w1 with db := w1.db.set i { existe with ruta_archivo := ruta } },
            Outcome.reparado)) := by
  refine ⟨?_, ?_, ?_⟩
  · intro hfind w1 ruta hsave
    simp [reconcile, hfind, hsave]
  · intro i existe hfind hpresent
    rcases hs3 : cfg.use_s3 with _ | _
    · rw [if_neg (by simp [hs3])] at hpresent
      have hp' : existe.ruta_archivo ∈ w.fs := by simpa using hpresent
      simp [reconcile, hfind, hs3, hp']
    · rw [if_pos (by simp [hs3])] at hpresent
      obtain ⟨hh, _⟩ := hno hs3
      have hp' : s3_key rfc clave (rfc ++ "_" ++ periodo ++ ".pdf") ∈ w.s3objs := by
        simpa using hpresent
      simp [reconcile, hfind, hs3, s3_exists, hh, hp']
  · intro i existe hfind hpresent w1 ruta hsave
    rcases hs3 : cfg.use_s3 with _ | _
    · rw [if_neg (by simp [hs3])] at hpresent
      have hp' : existe.ruta_archivo ∉ w.fs := by simpa using hpresent
      simp [reconcile, hfind, hs3, hp', hsave]
    · rw [if_pos (by simp [hs3])] at hpresent
      obtain ⟨hh, _⟩ := hno hs3
      have hp' : s3_key rfc clave (rfc ++ "_" ++ periodo ++ ".pdf") ∉ w.s3objs := by
        simpa using hpresent
      simp [reconcile, hfind, hs3, s3_exists, hh, hp', hsave]

/-- C1 witness: Scenario A against an empty ledger takes the `nuevo`
branch. -/
theorem C1_reconciler_three_outcomes_witness :
    reconcile cfg_fs "t1" w_empty "1234" "ABCD850101XYZ" "01-ene.-2025_al_15-ene.-2025" =
      Except.ok (⟨[rec_scenarioA_fs], [],
          ["/data/1234/ABCD850101XYZ_01-ene.-2025_al_15-ene.-2025.pdf"], [], []⟩,
        Outcome.nuevo) := by
  exact (C1_reconciler_three_outcomes cfg_fs "t1" w_empty "1234" "ABCD850101XYZ"
      "01-ene.-2025_al_15-ene.-2025" (by decide)).1 (by decide) _ _ rfl

/-- Helper: `List.find?` returns the first element satisfying the
predicate: an index whose element it is, satisfying the predicate, with
every earlier element failing it. -/
theorem find?_is_first {α : Type} (p : α → Bool) (l : List α) (a : α)
    (h : l.find? p = some a) :
    ∃ i, ∃ hi : i < l.length, l.get ⟨i, hi⟩ = a ∧ p a = true ∧
      ∀ b ∈ l.take i, p b = false := by
  induction l with
  | nil => cases h
  | cons c t ih =>
    rcases hc : p c with _ | _
    · rw [List.find?_cons_of_neg _ (by simp [hc])] at h
      obtain ⟨i, hi, hget, hp, hall⟩ := ih h
      refine ⟨i + 1, by simpa using Nat.succ_lt_succ hi, by simpa using hget, hp, ?_⟩
      intro b hb
      rcases (by simpa using hb : b = c ∨ b ∈ t.take i) with rfl | hb'
      · exact hc
      · exact hall b hb'
    · rw [List.find?_cons_of_pos _ hc] at h
      cases h
      exact ⟨0, by simp, rfl, hc, by simp⟩

/-- C9: the resolver normalizes every candidate by uppercasing and keeping
only the identifier alphabet (letters, digits, Ñ and the ampersand); among
the normalized candidates, in extraction order, the first one that is a key
of the directory mapping is resolved (and processing continues into the
reconciler with its employee key); if none is a key, the document counts as
`sin_usuario` and the world — hence the ledger — is untouched. -/
theorem C9_resolver_first_match (cfg : Config) (um : List (String × String))
    (now : String) (w : World) (f : PdfFile) (rs : List String) (p : String)
    (hex : extraer_rfcs_y_periodo f = (rs, some p)) :
    (∀ s t, normalize_rfc (some s) = some t →
      t.data = (s.data.map pyUpper).filter isRfcAlphabet) ∧
    (∀ r, ((rs.map (fun x => normalize_rfc (some x))).filterMap id).find?
        (fun x => dictContains um x) = some r →
      (∃ i, ∃ hi : i < ((rs.map (fun x => normalize_rfc (some x))).filterMap id).length,
        ((rs.map (fun x => normalize_rfc (some x))).filterMap id).get ⟨i, hi⟩ = r ∧
        dictContains um r = true ∧
        ∀ b ∈ ((rs.map (fun x => normalize_rfc (some x))).filterMap id).take i,
          dictContains um b = false) ∧
      processDoc cfg um now w f =
        reconcile cfg now w ((dictGet? um r).getD "") r p) ∧
    ((rs.map (fun x => normalize_rfc (some x))).filterMap id ≠ [] →
      ((rs.map (fun x => normalize_rfc (some x))).filterMap id).find?
        (fun x => dictContains um x) = none →
      processDoc cfg um now w f = Except.ok (w, Outcome.sin_usuario)) := by
  refine ⟨?_, ?_, ?_⟩
  · intro s t h
    by_cases hs : s = ""
    · simp [normalize_rfc, hs] at h
    · by_cases hempty : (s.data.map pyUpper).filter isRfcAlphabet = []
      · simp [normalize_rfc, hs, hempty] at h
      · simp [normalize_rfc, hs, hempty] at h
        rw [← h]
  · intro r hfind
    refine ⟨find?_is_first _ _ _ hfind, ?_⟩
    rcases hn : (rs.map (fun x => normalize_rfc (some x))).filterMap id with _ | ⟨r0, rest⟩
    · rw [hn] at hfind; cases hfind
    · rw [hn] at hfind
      simp only [processDoc, hex, hn, hfind]
  · intro hne hfind
    rcases hn : (rs.map (fun x => normalize_rfc (some x))).filterMap id with _ | ⟨r0, rest⟩
    · exact absurd hn hne
    · rw [hn] at hfind
      simp only [processDoc, hex, hn, hfind]

/-- C9 witness: a document carrying an unknown candidate before a known
one resolves to the known one, and a document with only unknown candidates
is counted `sin_usuario` with no writes. -/
theorem C9_resolver_first_match_witness :
    processDoc cfg_fs (build_user_map users_scenarioA) "t1" w_empty
        ⟨"dos.pdf", some [some "QQQQ000101QQ ABCD850101XYZ\nPeriodo del: 01-ene.-2025 al 15-ene.-2025"]⟩ =
      reconcile cfg_fs "t1" w_empty "1234" "ABCD850101XYZ" "01-ene.-2025_al_15-ene.-2025" ∧
    processDoc cfg_fs (build_user_map users_scenarioA) "t1" w_empty
        ⟨"x.pdf", some [some "QQQQ000101QQ\nPeriodo del: 01-ene-2025 al 15-ene-2025"]⟩ =
      Except.ok (w_empty, Outcome.sin_usuario) := by
  constructor
  · exact ((C9_resolver_first_match cfg_fs (build_user_map users_scenarioA) "t1" w_empty
      ⟨"dos.pdf", some [some "QQQQ000101QQ ABCD850101XYZ\nPeriodo del: 01-ene.-2025 al 15-ene.-2025"]⟩
      ["QQQQ000101QQ", "ABCD850101XYZ"] "01-ene.-2025_al_15-ene.-2025"
      (by decide)).2.1 "ABCD850101XYZ" (by decide)).2
  · exact (C9_resolver_first_match cfg_fs (build_user_map users_scenarioA) "t1" w_empty
      ⟨"x.pdf", some [some "QQQQ000101QQ\nPeriodo del: 01-ene-2025 al 15-ene-2025"]⟩
      ["QQQQ000101QQ"] "01-ene-2025_al_15-ene-2025"
      (by decide)).2.2 (by decide) (by decide)

/-- The sum invariant of the result counters. -/
def statsSumOk (s : Stats) : Prop :=
  s.nuevos + s.ya_existian + s.reparados + s.sin_usuario + s.omitidos = s.total_pdfs

/-- Helper: the per-document loop preserves the counter sum invariant. -/
theorem runDocs_sum (cfg : Config) (um : List (String × String)) (now : String) :
    ∀ (fs : List PdfFile) (w : World) (s : Stats) (w' : World) (s' : Stats),
      statsSumOk s → runDocs cfg um now fs w s = Except.ok (w', s') → statsSumOk s' := by
  intro fs
  induction fs with
  | nil =>
    intro w s w' s' hs h
    cases h
    exact hs
  | cons f rest ih =>
    intro w s w' s' hs h
    rcases hext : hasPdfExt f.name with _ | _
    · rw [runDocs, if_neg (by simp [hext])] at h
      exact ih w s w' s' hs h
    · rw [runDocs, if_pos hext] at h
      rcases hp : processDoc cfg um now w f with e | ⟨w1, k⟩
      · rw [hp] at h; cases h
      · rw [hp] at h
        refine ih w1 _ w' s' ?_ h
        unfold statsSumOk at hs ⊢
        cases k <;> simp [bumpOutcome] <;> omega

/-- C10: whenever the batch call returns a `BatchResult`, the counters
satisfy `nuevos + ya_existian + reparados + sin_usuario + omitidos =
total_pdfs`: each recognized document increments the total and exactly one
outcome counter. -/
theorem C10_counters_partition (cfg : Config) (now : String)
    (usuarios : List (String × Option String)) (blob : Blob) (w w' : World) (s : Stats)
    (h : procesar_zip cfg now usuarios blob w = Except.ok (w', s)) :
    s.nuevos + s.ya_existian + s.reparados + s.sin_usuario + s.omitidos = s.total_pdfs := by
  cases blob with
  | corrupt => cases h
  | valid files =>
    exact runDocs_sum cfg (build_user_map usuarios) now files w stats0 w' s (by rfl) h

/-- C10 witness: a mixed archive (one unreadable document, one created)
returns counters `1 + 0 + 0 + 0 + 1 = 2`. -/
theorem C10_counters_partition_witness :
    (procesar_zip cfg_fs "t" users_scenarioA
        (Blob.valid [⟨"scan.pdf", some [none]⟩, doc_scenarioA]) w_empty).toOption.map
      (fun r => r.2) = some ⟨1, 0, 0, 0, 1, 2⟩ ∧
    ∀ w' s, procesar_zip cfg_fs "t" users_scenarioA
        (Blob.valid [⟨"scan.pdf", some [none]⟩, doc_scenarioA]) w_empty = Except.ok (w', s) →
      s.nuevos + s.ya_existian + s.reparados + s.sin_usuario + s.omitidos = s.total_pdfs := by
  exact ⟨by decide, fun w' s h =>
    C10_counters_partition cfg_fs "t" users_scenarioA _ w_empty w' s h⟩

/-! ## Helpers about extraction over page prefixes (claim C7) -/

/-- A page full of the period phrase and an identifier, placed deep in a
document. -/
def page_deep : String := "Periodo del: 01-ene-2025 al 15-ene-2025 ABC850101XY"

/-- Joining `k` empty pages followed by one page `t` yields `k` newlines and
then `t`. -/
theorem joinPages_replicate_nil (k : Nat) (t : List Char) :
    joinPages (List.replicate k [] ++ [t]) = List.replicate k '\n' ++ t := by
  induction k with
  | zero => rfl
  | succ k ih =>
    rcases hk : List.replicate k ([] : List Char) ++ [t] with _ | ⟨c, l'⟩
    · exact absurd hk (by simp)
    · calc joinPages (List.replicate (k + 1) [] ++ [t])
          = joinPages ([] :: (List.replicate k [] ++ [t])) := by rw [List.replicate_succ]; rfl
        _ = '\n' :: joinPages (List.replicate k [] ++ [t]) := by rw [hk]; rfl
        _ = List.replicate (k + 1) '\n' ++ t := by rw [ih, List.replicate_succ]; rfl

/-- Joining `k` empty pages yields `k - 1` newlines. -/
theorem joinPages_replicate (k : Nat) :
    joinPages (List.replicate k ([] : List Char)) = List.replicate (k - 1) '\n' := by
  induction k with
  | zero => rfl
  | succ k ih =>
    cases k with
    | zero => rfl
    | succ m =>
      calc joinPages (List.replicate (m + 2) ([] : List Char))
          = '\n' :: joinPages (List.replicate (m + 1) ([] : List Char)) := by
            rw [List.replicate_succ, List.replicate_succ]; rfl
        _ = List.replicate (m + 1) '\n' := by rw [ih]; simp [List.replicate_succ]

/-- A run of newlines is blank. -/
theorem nonBlank_newlines (m : Nat) : nonBlank (List.replicate m '\n') = false := by
  induction m with
  | zero => rfl
  | succ m ih =>
    simp only [List.replicate_succ, nonBlank, List.any_cons]
    rw [show (!Char.isWhitespace '\n') = false from by decide]
    simp only [Bool.false_or]
    exact ih

/-- Leading newlines do not change blankness. -/
theorem nonBlank_prefix_newlines (k : Nat) (t : List Char) :
    nonBlank (List.replicate k '\n' ++ t) = nonBlank t := by
  have := nonBlank_newlines k
  simp only [nonBlank, List.any_append] at *
  simp [this]

/-- The RFC scanner ignores whether its previous character was a newline or
the start of the text. -/
theorem rfcScan_newline_prev (t : List Char) :
    rfcScan 0 (some '\n') t = rfcScan 0 none t := by
  cases t with
  | nil => rfl
  | cons c rest =>
    have hb : boundaryAt (some '\n') c = boundaryAt none c := by
      rcases hw : isWordChar c with _ | _ <;>
        simp [boundaryAt, hw, show isWordChar '\n' = false from by decide]
    rcases h : boundaryAt none c with _ | _ <;>
      simp [rfcScan, hb, h]

/-- The RFC scanner skips a leading run of newlines, with the previous
character set to a newline. -/
theorem rfcScan_newlines_from_newline (k : Nat) (t : List Char) :
    rfcScan 0 (some '\n') (List.replicate k '\n' ++ t) = rfcScan 0 (some '\n') t := by
  induction k with
  | zero => rfl
  | succ k ih =>
    rw [List.replicate_succ]
    exact ih

/-- The RFC scanner skips a leading run of newlines. -/
theorem rfcScan_newlines (k : Nat) (t : List Char) :
    rfcScan 0 none (List.replicate k '\n' ++ t) = rfcScan 0 none t := by
  cases k with
  | zero => rfl
  | succ k =>
    rw [List.replicate_succ]
    calc rfcScan 0 none ('\n' :: (List.replicate k '\n' ++ t))
        = rfcScan 0 (some '\n') (List.replicate k '\n' ++ t) := rfl
      _ = rfcScan 0 (some '\n') t := rfcScan_newlines_from_newline k t
      _ = rfcScan 0 none t := rfcScan_newline_prev t

/-- The period search skips a leading run of newlines. -/
theorem perSearch_newlines (k : Nat) (t : List Char) :
    perSearch (List.replicate k '\n' ++ t) = perSearch t := by
  induction k with
  | zero => rfl
  | succ k ih =>
    rw [List.replicate_succ]
    exact ih

/-- Extraction of a document made of `k` empty pages (and a neutral name):
nothing is found. -/
theorem extraer_blank_pages (k : Nat) :
    extraer_rfcs_y_periodo ⟨"a.pdf", some (List.replicate k (some ""))⟩ = ([], none) := by
  simp only [extraer_rfcs_y_periodo, List.map_replicate]
  rw [show ((some "").getD "").data = ([] : List Char) from rfl]
  rw [joinPages_replicate, nonBlank_newlines]
  rfl

/-- Extraction of a document whose relevant page sits after `k` empty
pages: the deep page is still read. -/
theorem extraer_deep_page (k : Nat) :
    extraer_rfcs_y_periodo ⟨"a.pdf", some (List.replicate k (some "") ++ [some page_deep])⟩ =
      (["ABC850101XY"], some "01-ene-2025_al_15-ene-2025") := by
  simp only [extraer_rfcs_y_periodo, List.map_append, List.map_replicate]
  rw [show ((some "").getD "").data = ([] : List Char) from rfl]
  rw [show List.map (fun p => (Option.getD p "").data) [some page_deep] = [page_deep.data]
    from rfl]
  rw [joinPages_replicate_nil, nonBlank_prefix_newlines]
  rw [show nonBlank page_deep.data = true from by decide]
  simp only [if_true]
  rw [show rfc_findall (String.mk (List.replicate k '\n' ++ page_deep.data)) =
      (rfcScan 0 none (List.replicate k '\n' ++ page_deep.data)).map String.mk from rfl]
  rw [rfcScan_newlines, perSearch_newlines]
  rw [show (rfcScan 0 none page_deep.data).map String.mk = ["ABC850101XY"] from by decide]
  rw [show perSearch page_deep.data =
      some ("01-ene-2025".data, "15-ene-2025".data) from by decide]
  rfl

/-- Helper: dropping the deep page changes the extraction result. -/
theorem deep_doc_take_ne (k : Nat) :
    extraer_rfcs_y_periodo ⟨"a.pdf", some (List.replicate k (some "") ++ [some page_deep])⟩ ≠
      extraer_rfcs_y_periodo ⟨"a.pdf",
        (some (List.replicate k (some "") ++ [some page_deep])).map
          (fun ps => ps.take k)⟩ := by
  intro h1
  rw [extraer_deep_page] at h1
  have htake : (List.replicate k (some "" : Option String) ++ [some page_deep]).take k =
      List.replicate k (some "") := by
    exact List.take_left' (by simp)
  rw [show (some (List.replicate k (some "" : Option String) ++ [some page_deep])).map
        (fun ps => ps.take k) =
      some ((List.replicate k (some "" : Option String) ++ [some page_deep]).take k)
    from rfl, htake, extraer_blank_pages] at h1
  simp at h1

/-- C7 counterexample: no page bound preserves extraction — for every bound
`k` there is a document whose extraction result changes when only its first
`k` pages are kept, so the extractor does not read only a bounded prefix of
the pages. -/
theorem C7_counterexample :
    ¬ ∃ k : Nat, ∀ f : PdfFile,
        extraer_rfcs_y_periodo f =
          extraer_rfcs_y_periodo ⟨f.name, f.content.map (fun ps => ps.take k)⟩ := by
  rintro ⟨k, h⟩
  exact deep_doc_take_ne k
    (h ⟨"a.pdf", some (List.replicate k (some "") ++ [some page_deep])⟩)

/-- C7 amended: the fallback path joins the text of every page of the
document: for every page bound `k` there is a document with `k + 1` pages
whose extraction result changes when the pages beyond the `k`-th are
discarded. -/
theorem C7_amended_reads_every_page (k : Nat) :
    ∃ f : PdfFile, f.content.map List.length = some (k + 1) ∧
      extraer_rfcs_y_periodo f ≠
        extraer_rfcs_y_periodo ⟨f.name, f.content.map (fun ps => ps.take k)⟩ := by
  exact ⟨⟨"a.pdf", some (List.replicate k (some "") ++ [some page_deep])⟩,
    by simp, deep_doc_take_ne k⟩

/-! ## Machinery for the idempotence claim (C2)

`resolution` recomputes, purely from the document and the directory map,
the employee key, identifier and period the per-document step would hand to
the reconciler — or `none` when the step short-circuits with `omitido` or
`sin_usuario`.
-/

/-- The world-independent part of the per-document step. -/
def resolution (um : List (String × String)) (f : PdfFile) :
    Option (String × String × String) :=
  let er := extraer_rfcs_y_periodo f
  let norms := (er.1.map (fun r => normalize_rfc (some r))).filterMap id
  match er.2, norms with
  | none, _ => none
  | some _, [] => none
  | some periodo, r0 :: rest =>
    match (r0 :: rest).find? (fun r => dictContains um r) with
    | none => none
    | some r => some ((dictGet? um r).getD "", r, periodo)

/-- A step that does not reach the reconciler leaves the world untouched
and yields the same recoverable outcome from any world. -/
theorem processDoc_of_resolution_none (cfg : Config) (um : List (String × String))
    (f : PdfFile) (h : resolution um f = none) :
    ∃ k, (k = Outcome.omitido ∨ k = Outcome.sin_usuario) ∧
      ∀ now w, processDoc cfg um now w f = Except.ok (w, k) := by
  rcases hE : extraer_rfcs_y_periodo f with ⟨rs, pOpt⟩
  rcases pOpt with _ | p
  · exact ⟨Outcome.omitido, Or.inl rfl, fun now w => by
      simp only [processDoc, hE]⟩
  · rcases hN : (rs.map (fun r => normalize_rfc (some r))).filterMap id with _ | ⟨r0, rest⟩
    · exact ⟨Outcome.omitido, Or.inl rfl, fun now w => by
        simp only [processDoc, hE, hN]⟩
    · rcases hF : (r0 :: rest).find? (fun r => dictContains um r) with _ | r
      · exact ⟨Outcome.sin_usuario, Or.inr rfl, fun now w => by
          simp only [processDoc, hE, hN, hF]⟩
      · exact absurd h (by simp [resolution, hE, hN, hF])

/-- A step that reaches the reconciler is the reconciler, with arguments
independent of the world. -/
theorem processDoc_of_resolution_some (cfg : Config) (um : List (String × String))
    (now : String) (f : PdfFile) (clave rfc periodo : String)
    (h : resolution um f = some (clave, rfc, periodo)) :
    ∀ w, processDoc cfg um now w f = reconcile cfg now w clave rfc periodo := by
  intro w
  rcases hE : extraer_rfcs_y_periodo f with ⟨rs, pOpt⟩
  rcases pOpt with _ | p
  · exact absurd h (by simp [resolution, hE])
  · rcases hN : (rs.map (fun r => normalize_rfc (some r))).filterMap id with _ | ⟨r0, rest⟩
    · exact absurd h (by simp [resolution, hE, hN])
    · rcases hF : (r0 :: rest).find? (fun r => dictContains um r) with _ | r
      · exact absurd h (by simp [resolution, hE, hN, hF])
      · simp only [resolution, hE, hN, hF] at h
        cases h
        simp only [processDoc, hE, hN, hF]

/-- The reconciler only ever reports `nuevo`, `ya_existia` or `reparado`. -/
theorem reconcile_outcomes (cfg : Config) (now : String) (w : World)
    (clave rfc periodo : String) (w' : World) (k : Outcome)
    (h : reconcile cfg now w clave rfc periodo = Except.ok (w', k)) :
    k = Outcome.nuevo ∨ k = Outcome.ya_existia ∨ k = Outcome.reparado := by
  simp only [reconcile] at h
  rcases hfind : ledgerFind w.db clave rfc (pyReplace periodo "_al_" " al ")
      (rfc ++ "_" ++ periodo ++ ".pdf") with _ | ⟨i, existe⟩ <;>
    rw [hfind] at h <;> dsimp only at h
  · rcases hsave : save_pdf_and_get_path cfg w rfc clave (rfc ++ "_" ++ periodo ++ ".pdf")
        with e | ⟨w1, ruta⟩ <;> rw [hsave] at h
    · cases h
    · cases h; exact Or.inl rfl
  · by_cases hm : (if cfg.use_s3 then
        match s3_exists w cfg.s3_bucket (s3_key rfc clave (rfc ++ "_" ++ periodo ++ ".pdf")) with
        | Except.ok b => !b
        | Except.error _ => true
      else !(w.fs.contains existe.ruta_archivo)) = true
    · rw [if_pos hm] at h
      rcases hsave : save_pdf_and_get_path cfg w rfc clave (rfc ++ "_" ++ periodo ++ ".pdf")
          with e | ⟨w1, ruta⟩ <;> rw [hsave] at h
      · cases h
      · cases h; exact Or.inr (Or.inr rfl)
    · rw [if_neg hm] at h
      cases h; exact Or.inr (Or.inl rfl)

/-- Shape of a successful persist: storage only grows, the ledger and the
fault sets are untouched; the returned locator is in the stored set of its
backend. -/
theorem save_shape (cfg : Config) (w : World) (rfc clave nombre : String)
    (w1 : World) (ruta : String)
    (h : save_pdf_and_get_path cfg w rfc clave nombre = Except.ok (w1, ruta)) :
    w1.db = w.db ∧ w1.headFaults = w.headFaults ∧ w1.uploadFaults = w.uploadFaults ∧
      (∀ x ∈ w.s3objs, x ∈ w1.s3objs) ∧ (∀ x ∈ w.fs, x ∈ w1.fs) ∧
      (cfg.use_s3 = true →
        w1.s3objs = s3_key rfc clave nombre :: w.s3objs ∧ w1.fs = w.fs) ∧
      (cfg.use_s3 = false → w1.fs = ruta :: w.fs ∧ w1.s3objs = w.s3objs) := by
  unfold save_pdf_and_get_path at h
  rcases hs3 : cfg.use_s3 with _ | _ <;> rw [hs3] at h <;> simp only [if_true, if_false] at h
  · cases h
    refine ⟨rfl, rfl, rfl, fun x hx => hx, fun x hx => by simp [hx], by simp, fun _ => ⟨rfl, rfl⟩⟩
  · rcases hup : w.uploadFaults.contains (s3_key rfc clave nombre) with _ | _ <;>
      rw [hup] at h <;> simp at h
    obtain ⟨h1, _⟩ := h
    rw [← h1]
    refine ⟨rfl, rfl, rfl, fun x hx => by simp [hx], fun x hx => hx, fun _ => ⟨rfl, rfl⟩, by simp⟩

/-- The dedup filter ignores the locator column. -/
theorem recMatches_set_ruta (c r per nom : String) (v : Recibo) (x : String) :
    recMatches c r per nom { v with ruta_archivo := x } = recMatches c r per nom v :=
  rfl

/-- Lookup equation: a matching head row is found at index 0. -/
theorem ledgerFind_cons_pos (d : Recibo) (rest : List Recibo) (c r per nom : String)
    (hm : recMatches c r per nom d = true) :
    ledgerFind (d :: rest) c r per nom = some (0, d) := by
  conv_lhs => rw [ledgerFind]
  rw [if_pos hm]

/-- Lookup equation: a non-matching head row shifts the tail lookup. -/
theorem ledgerFind_cons_neg (d : Recibo) (rest : List Recibo) (c r per nom : String)
    (hm : recMatches c r per nom d = false) :
    ledgerFind (d :: rest) c r per nom =
      match ledgerFind rest c r per nom with
      | some (i', r') => some (i' + 1, r')
      | none => none := by
  conv_lhs => rw [ledgerFind]
  rw [if_neg (by simp [hm])]

/-- The element a ledger lookup returns is the element at the returned
index. -/
theorem ledgerFind_get? (db : List Recibo) (c r per nom : String) (i : Nat) (rec : Recibo)
    (h : ledgerFind db c r per nom = some (i, rec)) : db.get? i = some rec := by
  induction db generalizing i with
  | nil => cases h
  | cons d rest ih =>
    rcases hm : recMatches c r per nom d with _ | _
    · rw [ledgerFind_cons_neg d rest c r per nom hm] at h
      rcases hrest : ledgerFind rest c r per nom with _ | ⟨i', rec'⟩ <;>
        rw [hrest] at h <;> dsimp only at h
      · cases h
      · cases h
        simpa using ih i' hrest
    · rw [ledgerFind_cons_pos d rest c r per nom hm] at h
      cases h
      rfl

/-- A ledger lookup is preserved by appending rows. -/
theorem ledgerFind_append_some (db l2 : List Recibo) (c r per nom : String)
    (i : Nat) (rec : Recibo) (h : ledgerFind db c r per nom = some (i, rec)) :
    ledgerFind (db ++ l2) c r per nom = some (i, rec) := by
  induction db generalizing i with
  | nil => cases h
  | cons d rest ih =>
    rcases hm : recMatches c r per nom d with _ | _
    · rw [ledgerFind_cons_neg d rest c r per nom hm] at h
      rw [List.cons_append, ledgerFind_cons_neg d (rest ++ l2) c r per nom hm]
      rcases hrest : ledgerFind rest c r per nom with _ | ⟨i', rec'⟩ <;>
        rw [hrest] at h <;> dsimp only at h
      · cases h
      · cases h
        rw [ih i' hrest]
    · rw [ledgerFind_cons_pos d rest c r per nom hm] at h
      rw [List.cons_append, ledgerFind_cons_pos d (rest ++ l2) c r per nom hm]
      exact h

/-- A failed ledger lookup followed by appending a matching row finds that
row, at the end. -/
theorem ledgerFind_append_match (db : List Recibo) (c r per nom : String) (v : Recibo)
    (h : ledgerFind db c r per nom = none) (hv : recMatches c r per nom v = true) :
    ledgerFind (db ++ [v]) c r per nom = some (db.length, v) := by
  induction db with
  | nil => simpa using ledgerFind_cons_pos v [] c r per nom hv
  | cons d rest ih =>
    rcases hm : recMatches c r per nom d with _ | _
    · rw [ledgerFind_cons_neg d rest c r per nom hm] at h
      rw [List.cons_append, ledgerFind_cons_neg d (rest ++ [v]) c r per nom hm]
      rcases hrest : ledgerFind rest c r per nom with _ | ⟨i', rec'⟩ <;>
        rw [hrest] at h <;> dsimp only at h
      · rw [ih hrest]
        simp
      · cases h
    · rw [ledgerFind_cons_pos d rest c r per nom hm] at h
      cases h

/-- A ledger lookup is preserved by a locator-only update of any row: the
same index is found, and only an update of that very row can change the
returned element. -/
theorem ledgerFind_set_ruta (db : List Recibo) (c r per nom : String)
    (i : Nat) (rec : Recibo) (j : Nat) (rj : Recibo) (x : String)
    (h : ledgerFind db c r per nom = some (i, rec)) (hj : db.get? j = some rj) :
    ledgerFind (db.set j { rj with ruta_archivo := x }) c r per nom =
      some (i, if i = j then { rec with ruta_archivo := x } else rec) := by
  induction db generalizing i j with
  | nil => cases h
  | cons d rest ih =>
    rcases hm : recMatches c r per nom d with _ | _
    · rw [ledgerFind_cons_neg d rest c r per nom hm] at h
      rcases hrest : ledgerFind rest c r per nom with _ | ⟨i', rec'⟩ <;>
        rw [hrest] at h <;> dsimp only at h
      · cases h
      · cases h
        cases j with
        | zero =>
          simp only [List.get?_cons_zero, Option.some.injEq] at hj
          subst hj
          rw [List.set_cons_zero]
          rw [ledgerFind_cons_neg _ rest c r per nom
            (by rw [recMatches_set_ruta]; exact hm), hrest]
          simp
        | succ j' =>
          simp only [List.get?_cons_succ] at hj
          rw [List.set_cons_succ]
          rw [ledgerFind_cons_neg d _ c r per nom hm, ih i' j' hrest hj]
          by_cases hij : i' = j'
          · rw [if_pos hij, if_pos (by omega)]
          · rw [if_neg hij, if_neg (by omega)]
    · rw [ledgerFind_cons_pos d rest c r per nom hm] at h
      cases h
      cases j with
      | zero =>
        simp only [List.get?_cons_zero, Option.some.injEq] at hj
        subst hj
        rw [List.set_cons_zero]
        rw [ledgerFind_cons_pos _ rest c r per nom
          (by rw [recMatches_set_ruta]; exact hm)]
        simp
      | succ j' =>
        rw [List.set_cons_succ]
        rw [ledgerFind_cons_pos _ _ c r per nom hm]
        simp

/-! ### Reconciler equations

Abbreviations mirroring `reconcile`'s internal lets, and forward/inversion
equations for its three branches.
-/

/-- The canonical filename `reconcile` builds. -/
def nombreOf (rfc periodo : String) : String := rfc ++ "_" ++ periodo ++ ".pdf"

/-- The stored period `reconcile` builds. -/
def perBdOf (periodo : String) : String := pyReplace periodo "_al_" " al "

/-- The `missing` flag `reconcile` computes for a found row. -/
def missingOf (cfg : Config) (w : World) (clave rfc periodo : String)
    (existe : Recibo) : Bool :=
  if cfg.use_s3 then
    match s3_exists w cfg.s3_bucket (s3_key rfc clave (nombreOf rfc periodo)) with
    | Except.ok b => !b
    | Except.error _ => true
  else !(w.fs.contains existe.ruta_archivo)

/-- The fresh row `reconcile` inserts. -/
def newRecOf (now clave rfc periodo ruta : String) : Recibo :=
  ⟨clave, rfc, perBdOf periodo, nombreOf rfc periodo, ruta, now⟩

/-- Forward equation: no row found, persist succeeded. -/
theorem reconcile_eq_nuevo (cfg : Config) (now : String) (w : World)
    (clave rfc periodo : String) (w1 : World) (ruta : String)
    (hfind : ledgerFind w.db clave rfc (perBdOf periodo) (nombreOf rfc periodo) = none)
    (hsave : save_pdf_and_get_path cfg w rfc clave (nombreOf rfc periodo) =
      Except.ok (w1, ruta)) :
    reconcile cfg now w clave rfc periodo =
      Except.ok ({ w1 with db := w1.db ++ [newRecOf now clave rfc periodo ruta] },
        Outcome.nuevo) := by
  simp only [reconcile]
  rw [show pyReplace periodo "_al_" " al " = perBdOf periodo from rfl,
    show rfc ++ "_" ++ periodo ++ ".pdf" = nombreOf rfc periodo from rfl, hfind]
  dsimp only
  rw [hsave]
  rfl

/-- Forward equation: row found, artifact judged present. -/
theorem reconcile_eq_ya (cfg : Config) (now : String) (w : World)
    (clave rfc periodo : String) (i : Nat) (existe : Recibo)
    (hfind : ledgerFind w.db clave rfc (perBdOf periodo) (nombreOf rfc periodo) =
      some (i, existe))
    (hmiss : missingOf cfg w clave rfc periodo existe = false) :
    reconcile cfg now w clave rfc periodo = Except.ok (w, Outcome.ya_existia) := by
  simp only [reconcile]
  rw [show pyReplace periodo "_al_" " al " = perBdOf periodo from rfl,
    show rfc ++ "_" ++ periodo ++ ".pdf" = nombreOf rfc periodo from rfl, hfind]
  dsimp only
  rw [show (if cfg.use_s3 = true then
      match s3_exists w cfg.s3_bucket (s3_key rfc clave (nombreOf rfc periodo)) with
      | Except.ok b => !b
      | Except.error _ => true
    else !(w.fs.contains existe.ruta_archivo)) = false from hmiss]
  rw [if_neg (by simp)]

/-- Forward equation: row found, artifact judged missing, persist
succeeded. -/
theorem reconcile_eq_reparado (cfg : Config) (now : String) (w : World)
    (clave rfc periodo : String) (i : Nat) (existe : Recibo) (w1 : World) (ruta : String)
    (hfind : ledgerFind w.db clave rfc (perBdOf periodo) (nombreOf rfc periodo) =
      some (i, existe))
    (hmiss : missingOf cfg w clave rfc periodo existe = true)
    (hsave : save_pdf_and_get_path cfg w rfc clave (nombreOf rfc periodo) =
      Except.ok (w1, ruta)) :
    reconcile cfg now w clave rfc periodo =
      Except.ok ({ w1 with db := w1.db.set i { existe with ruta_archivo := ruta } },
        Outcome.reparado) := by
  simp only [reconcile]
  rw [show pyReplace periodo "_al_" " al " = perBdOf periodo from rfl,
    show rfc ++ "_" ++ periodo ++ ".pdf" = nombreOf rfc periodo from rfl, hfind]
  dsimp only
  rw [show (if cfg.use_s3 = true then
      match s3_exists w cfg.s3_bucket (s3_key rfc clave (nombreOf rfc periodo)) with
      | Except.ok b => !b
      | Except.error _ => true
    else !(w.fs.contains existe.ruta_archivo)) = true from hmiss]
  rw [if_pos rfl, hsave]

/-- Inversion: a successful reconciliation is one of the three branches. -/
theorem reconcile_inv (cfg : Config) (now : String) (w : World)
    (clave rfc periodo : String) (w' : World) (k : Outcome)
    (h : reconcile cfg now w clave rfc periodo = Except.ok (w', k)) :
    (∃ w1 ruta,
      ledgerFind w.db clave rfc (perBdOf periodo) (nombreOf rfc periodo) = none ∧
      save_pdf_and_get_path cfg w rfc clave (nombreOf rfc periodo) = Except.ok (w1, ruta) ∧
      w' = { w1 with db := w1.db ++ [newRecOf now clave rfc periodo ruta] } ∧
      k = Outcome.nuevo) ∨
    (∃ i existe,
      ledgerFind w.db clave rfc (perBdOf periodo) (nombreOf rfc periodo) = some (i, existe) ∧
      missingOf cfg w clave rfc periodo existe = false ∧ w' = w ∧ k = Outcome.ya_existia) ∨
    (∃ i existe w1 ruta,
      ledgerFind w.db clave rfc (perBdOf periodo) (nombreOf rfc periodo) = some (i, existe) ∧
      missingOf cfg w clave rfc periodo existe = true ∧
      save_pdf_and_get_path cfg w rfc clave (nombreOf rfc periodo) = Except.ok (w1, ruta) ∧
      w' = { w1 with db := w1.db.set i { existe with ruta_archivo := ruta } } ∧
      k = Outcome.reparado) := by
  rcases hfind : ledgerFind w.db clave rfc (perBdOf periodo) (nombreOf rfc periodo)
      with _ | ⟨i, existe⟩
  · rcases hsave : save_pdf_and_get_path cfg w rfc clave (nombreOf rfc periodo)
        with e | ⟨w1, ruta⟩
    · rw [show reconcile cfg now w clave rfc periodo = Except.error e from by
        simp only [reconcile]
        rw [show pyReplace periodo "_al_" " al " = perBdOf periodo from rfl,
          show rfc ++ "_" ++ periodo ++ ".pdf" = nombreOf rfc periodo from rfl, hfind]
        dsimp only
        rw [hsave]] at h
      cases h
    · rw [reconcile_eq_nuevo cfg now w clave rfc periodo w1 ruta hfind hsave] at h
      cases h
      exact Or.inl ⟨w1, ruta, rfl, rfl, rfl, rfl⟩
  · rcases hmiss : missingOf cfg w clave rfc periodo existe with _ | _
    · rw [reconcile_eq_ya cfg now w clave rfc periodo i existe hfind hmiss] at h
      cases h
      exact Or.inr (Or.inl ⟨i, existe, rfl, hmiss, rfl, rfl⟩)
    · rcases hsave : save_pdf_and_get_path cfg w rfc clave (nombreOf rfc periodo)
          with e | ⟨w1, ruta⟩
      · rw [show reconcile cfg now w clave rfc periodo = Except.error e from by
          simp only [reconcile]
          rw [show pyReplace periodo "_al_" " al " = perBdOf periodo from rfl,
            show rfc ++ "_" ++ periodo ++ ".pdf" = nombreOf rfc periodo from rfl, hfind]
          dsimp only
          rw [show (if cfg.use_s3 = true then
              match s3_exists w cfg.s3_bucket (s3_key rfc clave (nombreOf rfc periodo)) with
              | Except.ok b => !b
              | Except.error _ => true
            else !(w.fs.contains existe.ruta_archivo)) = true from hmiss]
          rw [if_pos rfl, hsave]] at h
        cases h
      · rw [reconcile_eq_reparado cfg now w clave rfc periodo i existe w1 ruta
          hfind hmiss hsave] at h
        cases h
        exact Or.inr (Or.inr ⟨i, existe, w1, ruta, rfl, hmiss, rfl, rfl, rfl⟩)

/-! ### World growth and per-document stability -/

/-- How one successful step may change the world: fault behavior fixed,
bucket only grows, every ledger lookup still hits the same index, and (on
the filesystem backend) a located artifact stays located. -/
def Grows (cfg : Config) (w w2 : World) : Prop :=
  w2.headFaults = w.headFaults ∧
  w2.uploadFaults = w.uploadFaults ∧
  (∀ x, x ∈ w.s3objs → x ∈ w2.s3objs) ∧
  (∀ c r per nom i rec, ledgerFind w.db c r per nom = some (i, rec) →
    ∃ rec2, ledgerFind w2.db c r per nom = some (i, rec2) ∧
      (cfg.use_s3 = false → rec.ruta_archivo ∈ w.fs → rec2.ruta_archivo ∈ w2.fs))

theorem grows_refl (cfg : Config) (w : World) : Grows cfg w w :=
  ⟨rfl, rfl, fun _ hx => hx, fun _ _ _ _ _ rec h => ⟨rec, h, fun _ hx => hx⟩⟩

theorem grows_trans (cfg : Config) (w1 w2 w3 : World)
    (h12 : Grows cfg w1 w2) (h23 : Grows cfg w2 w3) : Grows cfg w1 w3 := by
  obtain ⟨hh12, hu12, ho12, hf12⟩ := h12
  obtain ⟨hh23, hu23, ho23, hf23⟩ := h23
  refine ⟨hh23.trans hh12, hu23.trans hu12, fun x hx => ho23 x (ho12 x hx), ?_⟩
  intro c r per nom i rec h1
  obtain ⟨rec2, h2, himp2⟩ := hf12 c r per nom i rec h1
  obtain ⟨rec3, h3, himp3⟩ := hf23 c r per nom i rec2 h2
  exact ⟨rec3, h3, fun hs hx => himp3 hs (himp2 hs hx)⟩

/-- A successful reconciliation only grows the world. -/
theorem reconcile_grows (cfg : Config) (now : String) (w : World)
    (clave rfc periodo : String) (w' : World) (k : Outcome)
    (h : reconcile cfg now w clave rfc periodo = Except.ok (w', k)) :
    Grows cfg w w' := by
  rcases reconcile_inv cfg now w clave rfc periodo w' k h with
    ⟨w1, ruta, hfind, hsave, hw', _⟩ |
    ⟨i, existe, hfind, hmiss, hw', _⟩ |
    ⟨i, existe, w1, ruta, hfind, hmiss, hsave, hw', _⟩
  · obtain ⟨hdb, hhf, huf, hobj, hfs, _, _⟩ :=
      save_shape cfg w rfc clave (nombreOf rfc periodo) w1 ruta hsave
    subst hw'
    refine ⟨hhf, huf, hobj, ?_⟩
    intro c r per nom i rec hq
    refine ⟨rec, ?_, fun _ hx => hfs _ hx⟩
    show ledgerFind (w1.db ++ [newRecOf now clave rfc periodo ruta]) c r per nom =
      some (i, rec)
    rw [hdb]
    exact ledgerFind_append_some w.db _ c r per nom i rec hq
  · subst hw'
    exact grows_refl cfg _
  · obtain ⟨hdb, hhf, huf, hobj, hfs, hS3, hFS⟩ :=
      save_shape cfg w rfc clave (nombreOf rfc periodo) w1 ruta hsave
    subst hw'
    refine ⟨hhf, huf, hobj, ?_⟩
    intro c r per nom i0 rec hq
    have hget : w.db.get? i = some existe := ledgerFind_get? w.db _ _ _ _ i existe hfind
    have hset := ledgerFind_set_ruta w.db c r per nom i0 rec i existe ruta hq hget
    refine ⟨if i0 = i then { rec with ruta_archivo := ruta } else rec, ?_, ?_⟩
    · show ledgerFind (w1.db.set i { existe with ruta_archivo := ruta }) c r per nom = _
      rw [hdb]
      exact hset
    · intro hs3 hx
      obtain ⟨hfs1, _⟩ := hFS hs3
      by_cases hii : i0 = i
      · rw [if_pos hii]
        rw [hfs1]
        simp
      · rw [if_neg hii]
        exact hfs _ hx

/-- A successful per-document step only grows the world. -/
theorem processDoc_grows (cfg : Config) (um : List (String × String)) (now : String)
    (w : World) (f : PdfFile) (w' : World) (k : Outcome)
    (h : processDoc cfg um now w f = Except.ok (w', k)) : Grows cfg w w' := by
  rcases hres : resolution um f with _ | ⟨clave, rfc, periodo⟩
  · obtain ⟨k0, _, hall⟩ := processDoc_of_resolution_none cfg um f hres
    rw [hall now w] at h
    cases h
    exact grows_refl cfg w
  · rw [processDoc_of_resolution_some cfg um now f clave rfc periodo hres w] at h
    exact reconcile_grows cfg now w clave rfc periodo w' k h

/-- A successful run of the document loop only grows the world. -/
theorem runDocs_grows (cfg : Config) (um : List (String × String)) (now : String) :
    ∀ (fs : List PdfFile) (w : World) (s : Stats) (w' : World) (s' : Stats),
      runDocs cfg um now fs w s = Except.ok (w', s') → Grows cfg w w' := by
  intro fs
  induction fs with
  | nil =>
    intro w s w' s' h
    cases h
    exact grows_refl cfg w
  | cons f rest ih =>
    intro w s w' s' h
    rcases hext : hasPdfExt f.name with _ | _
    · rw [runDocs, if_neg (by simp [hext])] at h
      exact ih w s w' s' h
    · rw [runDocs, if_pos hext] at h
      rcases hp : processDoc cfg um now w f with e | ⟨wa, k⟩ <;> rw [hp] at h
      · cases h
      · exact grows_trans cfg w wa w'
          (processDoc_grows cfg um now w f wa k hp)
          (ih wa _ w' s' h)

/-- Per-document stability: the dedup row is present and its artifact is
judged present, so reconciliation is a no-op from this world. -/
def StableAt (cfg : Config) (w : World) (clave rfc periodo : String) : Prop :=
  ∃ i existe,
    ledgerFind w.db clave rfc (perBdOf periodo) (nombreOf rfc periodo) = some (i, existe) ∧
    missingOf cfg w clave rfc periodo existe = false

/-- A stable document reconciles to `ya_existia` with no writes, whatever
the timestamp. -/
theorem stableAt_reconcile (cfg : Config) (w : World) (clave rfc periodo : String)
    (h : StableAt cfg w clave rfc periodo) (now : String) :
    reconcile cfg now w clave rfc periodo = Except.ok (w, Outcome.ya_existia) := by
  obtain ⟨i, existe, hfind, hmiss⟩ := h
  exact reconcile_eq_ya cfg now w clave rfc periodo i existe hfind hmiss

/-- Stability is preserved by world growth. -/
theorem stableAt_grows (cfg : Config) (w w2 : World) (clave rfc periodo : String)
    (hst : StableAt cfg w clave rfc periodo) (hg : Grows cfg w w2) :
    StableAt cfg w2 clave rfc periodo := by
  obtain ⟨i, existe, hfind, hmiss⟩ := hst
  obtain ⟨hhf, _, hobj, hfinds⟩ := hg
  obtain ⟨rec2, hfind2, himp⟩ := hfinds _ _ _ _ i existe hfind
  refine ⟨i, rec2, hfind2, ?_⟩
  rcases hs3 : cfg.use_s3 with _ | _
  · rw [missingOf, hs3] at hmiss
    simp only [Bool.false_eq_true, if_false, Bool.not_eq_false'] at hmiss
    have hx : existe.ruta_archivo ∈ w.fs := by simpa using hmiss
    rw [missingOf, hs3]
    simp only [Bool.false_eq_true, if_false, Bool.not_eq_false']
    simpa using himp hs3 hx
  · rw [missingOf, hs3] at hmiss
    simp only [if_true] at hmiss
    rw [missingOf, hs3]
    simp only [if_true]
    by_cases hk : s3_key rfc clave (nombreOf rfc periodo) ∈ w.headFaults
    · rw [show s3_exists w cfg.s3_bucket (s3_key rfc clave (nombreOf rfc periodo)) =
          Except.error () from by simp [s3_exists, hk]] at hmiss
      simp at hmiss
    · rw [show s3_exists w cfg.s3_bucket (s3_key rfc clave (nombreOf rfc periodo)) =
          Except.ok (w.s3objs.contains (s3_key rfc clave (nombreOf rfc periodo))) from by
        simp [s3_exists, hk]] at hmiss
      have hmem : s3_key rfc clave (nombreOf rfc periodo) ∈ w.s3objs := by
        simpa using hmiss
      have hk2 : s3_key rfc clave (nombreOf rfc periodo) ∉ w2.headFaults := by
        rw [hhf]; exact hk
      rw [show s3_exists w2 cfg.s3_bucket (s3_key rfc clave (nombreOf rfc periodo)) =
          Except.ok (w2.s3objs.contains (s3_key rfc clave (nombreOf rfc periodo))) from by
        simp [s3_exists, hk2]]
      simp [hobj _ hmem]

/-- The artifact is judged present on the object backend when the key head
request does not fault and the key is stored. -/
theorem missingOf_false_s3 (cfg : Config) (w : World) (clave rfc periodo : String)
    (rec : Recibo) (hs3 : cfg.use_s3 = true)
    (hk : s3_key rfc clave (nombreOf rfc periodo) ∉ w.headFaults)
    (hm : s3_key rfc clave (nombreOf rfc periodo) ∈ w.s3objs) :
    missingOf cfg w clave rfc periodo rec = false := by
  rw [missingOf, hs3]
  simp only [if_true]
  rw [show s3_exists w cfg.s3_bucket (s3_key rfc clave (nombreOf rfc periodo)) =
      Except.ok (w.s3objs.contains (s3_key rfc clave (nombreOf rfc periodo))) from by
    simp [s3_exists, hk]]
  simp [hm]

/-- The artifact is judged present on the filesystem backend when the
record's locator is a stored path. -/
theorem missingOf_false_fs (cfg : Config) (w : World) (clave rfc periodo : String)
    (rec : Recibo) (hs3 : cfg.use_s3 = false) (hm : rec.ruta_archivo ∈ w.fs) :
    missingOf cfg w clave rfc periodo rec = false := by
  rw [missingOf, hs3]
  simp [hm]

/-- After any successful reconciliation in a world whose exists checks do
not fault, the document is stable: its row exists and its artifact is
judged present. -/
theorem reconcile_establishes_stable (cfg : Config) (now : String) (w : World)
    (clave rfc periodo : String) (w' : World) (k : Outcome)
    (hff : w.headFaults = [])
    (h : reconcile cfg now w clave rfc periodo = Except.ok (w', k)) :
    StableAt cfg w' clave rfc periodo := by
  rcases reconcile_inv cfg now w clave rfc periodo w' k h with
    ⟨w1, ruta, hfind, hsave, hw', _⟩ |
    ⟨i, existe, hfind, hmiss, hw', _⟩ |
    ⟨i, existe, w1, ruta, hfind, hmiss, hsave, hw', _⟩
  · obtain ⟨hdb, hhf, huf, hobj, hfs, hS3, hFS⟩ :=
      save_shape cfg w rfc clave (nombreOf rfc periodo) w1 ruta hsave
    subst hw'
    refine ⟨w.db.length, newRecOf now clave rfc periodo ruta, ?_, ?_⟩
    · show ledgerFind (w1.db ++ [newRecOf now clave rfc periodo ruta]) clave rfc
          (perBdOf periodo) (nombreOf rfc periodo) = _
      rw [hdb]
      exact ledgerFind_append_match w.db _ _ _ _ _ hfind (by simp [recMatches, newRecOf])
    · rcases hs3 : cfg.use_s3 with _ | _
      · obtain ⟨hfs1, _⟩ := hFS hs3
        refine missingOf_false_fs cfg _ clave rfc periodo _ hs3 ?_
        show ruta ∈ w1.fs
        rw [hfs1]
        simp
      · obtain ⟨hobj1, _⟩ := hS3 hs3
        refine missingOf_false_s3 cfg _ clave rfc periodo _ hs3 ?_ ?_
        · show s3_key rfc clave (nombreOf rfc periodo) ∉ w1.headFaults
          rw [hhf, hff]
          simp
        · show s3_key rfc clave (nombreOf rfc periodo) ∈ w1.s3objs
          rw [hobj1]
          simp
  · subst hw'
    exact ⟨i, existe, hfind, hmiss⟩
  · obtain ⟨hdb, hhf, huf, hobj, hfs, hS3, hFS⟩ :=
      save_shape cfg w rfc clave (nombreOf rfc periodo) w1 ruta hsave
    subst hw'
    have hget : w.db.get? i = some existe := ledgerFind_get? w.db _ _ _ _ i existe hfind
    have hset := ledgerFind_set_ruta w.db clave rfc (perBdOf periodo) (nombreOf rfc periodo)
      i existe i existe ruta hfind hget
    rw [if_pos rfl] at hset
    refine ⟨i, { existe with ruta_archivo := ruta }, ?_, ?_⟩
    · show ledgerFind (w1.db.set i { existe with ruta_archivo := ruta }) clave rfc
          (perBdOf periodo) (nombreOf rfc periodo) = _
      rw [hdb]
      exact hset
    · rcases hs3 : cfg.use_s3 with _ | _
      · obtain ⟨hfs1, _⟩ := hFS hs3
        refine missingOf_false_fs cfg _ clave rfc periodo _ hs3 ?_
        show ruta ∈ w1.fs
        rw [hfs1]
        simp
      · obtain ⟨hobj1, _⟩ := hS3 hs3
        refine missingOf_false_s3 cfg _ clave rfc periodo _ hs3 ?_ ?_
        · show s3_key rfc clave (nombreOf rfc periodo) ∉ w1.headFaults
          rw [hhf, hff]
          simp
        · show s3_key rfc clave (nombreOf rfc periodo) ∈ w1.s3objs
          rw [hobj1]
          simp

/-- Replay lemma: running the document loop a second time from the world
the first run produced (no head faults anywhere) changes nothing and turns
every reconciled outcome into `ya_existia`, while the recoverable outcomes
repeat themselves. -/
theorem runDocs_replay (cfg : Config) (um : List (String × String)) (now now2 : String) :
    ∀ (fs : List PdfFile) (w : World) (sA sB : Stats) (w1 : World) (s1 : Stats),
      w.headFaults = [] →
      runDocs cfg um now fs w sA = Except.ok (w1, s1) →
      ∃ s2, runDocs cfg um now2 fs w1 sB = Except.ok (w1, s2) ∧
        s2.nuevos = sB.nuevos ∧
        s2.reparados = sB.reparados ∧
        s2.ya_existian + sA.nuevos + sA.ya_existian + sA.reparados =
          sB.ya_existian + s1.nuevos + s1.ya_existian + s1.reparados ∧
        s2.sin_usuario + sA.sin_usuario = sB.sin_usuario + s1.sin_usuario ∧
        s2.omitidos + sA.omitidos = sB.omitidos + s1.omitidos ∧
        s2.total_pdfs + sA.total_pdfs = sB.total_pdfs + s1.total_pdfs := by
  intro fs
  induction fs with
  | nil =>
    intro w sA sB w1 s1 hff h
    cases h
    exact ⟨sB, rfl, rfl, rfl, by omega, by omega, by omega, by omega⟩
  | cons f rest ih =>
    intro w sA sB w1 s1 hff h
    rcases hext : hasPdfExt f.name with _ | _
    · rw [runDocs, if_neg (by simp [hext])] at h
      obtain ⟨s2, hrun2, rels⟩ := ih w sA sB w1 s1 hff h
      exact ⟨s2, by rw [runDocs, if_neg (by simp [hext])]; exact hrun2, rels⟩
    · rw [runDocs, if_pos hext] at h
      rcases hp : processDoc cfg um now w f with e | ⟨wa, k⟩ <;> rw [hp] at h
      · cases h
      · have hgrow_a : Grows cfg w wa := processDoc_grows cfg um now w f wa k hp
        have hfa : wa.headFaults = [] := by rw [hgrow_a.1, hff]
        have hgrow_rest : Grows cfg wa w1 := runDocs_grows cfg um now rest wa _ w1 s1 h
        rcases hres : resolution um f with _ | ⟨⟨clave, rfc, periodo⟩⟩
        · obtain ⟨k0, hk0, hall⟩ := processDoc_of_resolution_none cfg um f hres
          have hwa : wa = w ∧ k = k0 := by
            have := (hall now w).symm.trans hp
            cases this
            exact ⟨rfl, rfl⟩
          obtain ⟨rfl, rfl⟩ := hwa
          obtain ⟨s2, hrun2, r1, r2, r3, r4, r5, r6⟩ :=
            ih wa (bumpOutcome { sA with total_pdfs := sA.total_pdfs + 1 } k)
              (bumpOutcome { sB with total_pdfs := sB.total_pdfs + 1 } k) w1 s1 hff h
          refine ⟨s2, ?_, ?_, ?_, ?_, ?_, ?_, ?_⟩
          · rw [runDocs, if_pos hext, hall now2 w1]
            exact hrun2
          all_goals rcases hk0 with rfl | rfl <;> simp [bumpOutcome] at r1 r2 r3 r4 r5 r6 ⊢ <;>
            omega
        · have hpe := processDoc_of_resolution_some cfg um now f clave rfc periodo hres
          have hpe2 := processDoc_of_resolution_some cfg um now2 f clave rfc periodo hres
          rw [hpe w] at hp
          have hst_wa : StableAt cfg wa clave rfc periodo :=
            reconcile_establishes_stable cfg now w clave rfc periodo wa k hff hp
          have hst_w1 : StableAt cfg w1 clave rfc periodo :=
            stableAt_grows cfg wa w1 clave rfc periodo hst_wa hgrow_rest
          have hk3 := reconcile_outcomes cfg now w clave rfc periodo wa k hp
          obtain ⟨s2, hrun2, r1, r2, r3, r4, r5, r6⟩ :=
            ih wa (bumpOutcome { sA with total_pdfs := sA.total_pdfs + 1 } k)
              (bumpOutcome { sB with total_pdfs := sB.total_pdfs + 1 } Outcome.ya_existia)
              w1 s1 hfa h
          refine ⟨s2, ?_, ?_, ?_, ?_, ?_, ?_, ?_⟩
          · rw [runDocs, if_pos hext, hpe2 w1,
              stableAt_reconcile cfg w1 clave rfc periodo hst_w1 now2]
            exact hrun2
          all_goals rcases hk3 with rfl | rfl | rfl <;>
            simp [bumpOutcome] at r1 r2 r3 r4 r5 r6 ⊢ <;> omega

/-- C2: replaying the same archive against the ledger and storage left by a
successful first run (whose storage raises no transient faults) returns the
same world — no new `ReceiptRecord` rows, no storage writes — with
`created = 0` and every document that was created, already present or
repaired on the first run now counted `alreadyPresent`; the recoverable
counters repeat. -/
theorem C2_replay_idempotent (cfg : Config) (now now2 : String)
    (usuarios : List (String × Option String)) (blob : Blob)
    (w0 w1 : World) (s1 : Stats) (hff : w0.headFaults = [])
    (h1 : procesar_zip cfg now usuarios blob w0 = Except.ok (w1, s1)) :
    procesar_zip cfg now2 usuarios blob w1 =
      Except.ok (w1, ⟨0, s1.nuevos + s1.ya_existian + s1.reparados, 0,
        s1.sin_usuario, s1.omitidos, s1.total_pdfs⟩) := by
  cases blob with
  | corrupt => cases h1
  | valid files =>
    obtain ⟨s2, hrun2, r1, r2, r3, r4, r5, r6⟩ :=
      runDocs_replay cfg (build_user_map usuarios) now now2 files w0 stats0 stats0
        w1 s1 hff h1
    have hs2 : s2 = ⟨0, s1.nuevos + s1.ya_existian + s1.reparados, 0,
        s1.sin_usuario, s1.omitidos, s1.total_pdfs⟩ := by
      rcases s2 with ⟨a, b, c, d, e, f⟩
      simp only [stats0] at r1 r2 r3 r4 r5 r6
      simp only [Stats.mk.injEq]
      refine ⟨by simpa using r1, by omega, by simpa using r2, by omega, by omega, by omega⟩
    rw [← hs2]
    exact hrun2

/-- C2 witness: replaying Scenario A's archive over its own first run's
world yields `alreadyPresent = 1`, `created = 0`, and the same world. -/
theorem C2_replay_idempotent_witness :
    procesar_zip cfg_fs "t2" users_scenarioA (Blob.valid [doc_scenarioA])
        ⟨[rec_scenarioA_fs], [],
          ["/data/1234/ABCD850101XYZ_01-ene.-2025_al_15-ene.-2025.pdf"], [], []⟩ =
      Except.ok (⟨[rec_scenarioA_fs], [],
          ["/data/1234/ABCD850101XYZ_01-ene.-2025_al_15-ene.-2025.pdf"], [], []⟩,
        ⟨0, 1, 0, 0, 0, 1⟩) := by
  exact C2_replay_idempotent cfg_fs "t1" "t2" users_scenarioA
    (Blob.valid [doc_scenarioA]) w_empty
    ⟨[rec_scenarioA_fs], [],
      ["/data/1234/ABCD850101XYZ_01-ene.-2025_al_15-ene.-2025.pdf"], [], []⟩
    ⟨1, 0, 0, 0, 0, 1⟩ rfl (by decide)

end Systeso
